import Mathlib

set_option maxRecDepth 8000

namespace DataCrew

/- ===================================================================
   Basic character/string utilities shared by the embedded functions.
   These model the Python primitives the source relies on
   (str.strip, str.lower, str.upper, substring membership, str.split).
   Whitespace is the ASCII whitespace class of Python's str.strip and
   of the regex class \s.
   =================================================================== -/

/-- Single-quote character (codepoint 39), built by codepoint to keep
string constants free of quote literals. -/
def sq : Char := Char.ofNat 39

/-- Opening curly brace (codepoint 123). -/
def lbrace : Char := Char.ofNat 123

/-- Closing curly brace (codepoint 125). -/
def rbrace : Char := Char.ofNat 125

/-- ASCII whitespace, as stripped by Python str.strip() and matched by
the regex class \s (space, tab, newline, carriage return, vertical tab,
form feed). -/
def pyIsSpace (c : Char) : Bool :=
  c = ' ' || c = '\t' || c = '\n' || c = '\r' || c = Char.ofNat 11 || c = Char.ofNat 12

/-- Characters stripped by the Python call strip of a double quote and a
single quote, as in clean_sql_content. -/
def isQuoteChar (c : Char) : Bool := c = '"' || c = sq

/-- Drop trailing characters satisfying p (suffix analogue of dropWhile). -/
def dropTrailing (p : Char → Bool) (l : List Char) : List Char :=
  (l.reverse.dropWhile p).reverse

/-- Python s.strip(S): drop characters satisfying p from both ends. -/
def pyStripGen (p : Char → Bool) (l : List Char) : List Char :=
  dropTrailing p (l.dropWhile p)

/-- Python str.strip() with no argument (whitespace). -/
def pyStripWs : List Char → List Char := pyStripGen pyIsSpace

/-- Python str.strip over the two quote characters. -/
def pyStripQuotes : List Char → List Char := pyStripGen isQuoteChar

/-- Python str.split on a newline: "a\nb".split gives ["a","b"], and the
empty string gives [""]. -/
def splitNl : List Char → List (List Char)
  | [] => [[]]
  | c :: rest =>
    let r := splitNl rest
    if c = '\n' then [] :: r
    else
      match r with
      | [] => [[c]]
      | l :: ls => (c :: l) :: ls

/-- Substring membership, Python `pat in s` (for a fixed pattern list). -/
def containsSub (pat : List Char) : List Char → Bool
  | [] => pat.isEmpty
  | c :: rest => pat.isPrefixOf (c :: rest) || containsSub pat rest

/-- Two consecutive dashes occur somewhere (Python: a two-dash string in line). -/
def hasDD : List Char → Bool
  | [] => false
  | c :: rest => (c = '-' && rest.head? = some '-') || hasDD rest

/-- The line starts with two dashes (Python startswith of a two-dash string). -/
def startsWithDD (l : List Char) : Bool :=
  (l.head? = some '-') && ((l.drop 1).head? = some '-')

/-- Longest prefix before the first occurrence of two consecutive dashes
(Python line.split at the two-dash marker, first component). -/
def takeBeforeDD : List Char → List Char
  | [] => []
  | c :: rest =>
    if c = '-' && rest.head? = some '-' then []
    else c :: takeBeforeDD rest

/-- Replace every maximal whitespace run by a single space, as the
re.sub of the pattern of one-or-more whitespace with one space does. -/
def collapseWs : List Char → List Char
  | [] => []
  | c :: rest =>
    if pyIsSpace c then
      if rest.head?.any pyIsSpace then collapseWs rest
      else ' ' :: collapseWs rest
    else c :: collapseWs rest

/-- Python " ".join. -/
def joinSp : List (List Char) → List Char
  | [] => []
  | l :: ls => if ls.isEmpty then l else l ++ ' ' :: joinSp ls

/-- Python str.lower character-wise (ASCII letters; other characters,
including CJK, are unchanged, matching Python on the tokens used here). -/
def pyLower (s : String) : String := String.mk (s.data.map Char.toLower)

/-- Python str.upper character-wise (ASCII letters). -/
def pyUpper (s : String) : String := String.mk (s.data.map Char.toUpper)

/-- Python substring membership on String values. -/
def containsStr (pat s : String) : Bool := containsSub pat.data s.data

/-- Python truthiness test `not s.strip()`: the string is empty or
whitespace only. -/
def pyBlank (s : String) : Bool := (pyStripWs s.data).isEmpty

/- ===================================================================
   clean_sql_content  (src/app.py lines 1237-1278)

   Python:
     if not sql_content: return ""
     sql_content = sql_content.strip().strip(quote-pair)
     lines = sql_content.split(newline)
     for line in lines:
         line = line.strip()
         if not line or line.startswith(two dashes) or line.startswith(hash): continue
         if two dashes in line: line = line.split(two dashes)[0].strip()
         if line: cleaned_lines.append(line)
     sql_query = space.join(cleaned_lines)
     sql_query = re.sub(whitespace-run, single space, sql_query).strip()
     if sql_query and not sql_query.endswith(semicolon): sql_query += semicolon
   =================================================================== -/

/-- Per-line processing step of clean_sql_content: strip, drop blank and
comment lines, truncate at an inline comment marker, keep if non-empty. -/
def processLine (line : List Char) : Option (List Char) :=
  if (pyStripWs line).isEmpty then none
  else if startsWithDD (pyStripWs line) then none
  else if (pyStripWs line).head? = some '#' then none
  else if hasDD (pyStripWs line) then
    if (pyStripWs (takeBeforeDD (pyStripWs line))).isEmpty then none
    else some (pyStripWs (takeBeforeDD (pyStripWs line)))
  else some (pyStripWs line)

/-- Strip quotes and whitespace, process the lines, join them and
collapse whitespace: the body of clean_sql_content before the
semicolon-termination step. -/
def cleanCore (s : List Char) : List Char :=
  pyStripWs (collapseWs (joinSp
    ((splitNl (pyStripQuotes (pyStripWs s))).filterMap processLine)))

/-- Core of clean_sql_content on character lists. -/
def cleanList (s : List Char) : List Char :=
  if s.isEmpty then []
  else if (cleanCore s).isEmpty then cleanCore s
  else if (cleanCore s).getLast? = some ';' then cleanCore s
  else cleanCore s ++ [';']

/-- clean_sql_content from src/app.py: strip surrounding whitespace and
quotes, drop blank/comment lines, truncate inline comments, join lines,
collapse whitespace, and terminate with a semicolon. -/
def clean_sql_content (s : String) : String := String.mk (cleanList s.data)

/- ===================================================================
   JSON values and a parser modelling Python json.loads as used by
   extract_sql_from_response.  Numbers are modelled as integers; an
   input whose JSON uses fractions, exponents or unicode escapes makes
   the parse fail, which the extractor treats exactly like a
   JSONDecodeError (it falls through to the next strategy).
   =================================================================== -/

inductive Json where
  | null : Json
  | bool (b : Bool) : Json
  | num (n : Int) : Json
  | str (s : List Char) : Json
  | arr (xs : List Json) : Json
  | obj (fields : List (List Char × Json)) : Json

/-- Whitespace accepted between JSON tokens. -/
def jsonWs (c : Char) : Bool := c = ' ' || c = '\t' || c = '\n' || c = '\r'

/-- Body of a JSON string literal after the opening quote; returns the
decoded characters and the input after the closing quote. -/
def parseStrBody : List Char → Option (List Char × List Char)
  | [] => none
  | c :: rest =>
    if c = '"' then some ([], rest)
    else if c = '\\' then
      match rest with
      | [] => none
      | e :: rest2 =>
        let esc? : Option Char :=
          if e = '"' then some '"'
          else if e = '\\' then some '\\'
          else if e = '/' then some '/'
          else if e = 'n' then some '\n'
          else if e = 't' then some '\t'
          else if e = 'r' then some '\r'
          else if e = 'b' then some (Char.ofNat 8)
          else if e = 'f' then some (Char.ofNat 12)
          else none
        match esc? with
        | none => none
        | some ch =>
          match parseStrBody rest2 with
          | none => none
          | some (cs, r) => some (ch :: cs, r)
    else if c.toNat < 32 then none
    else
      match parseStrBody rest with
      | none => none
      | some (cs, r) => some (c :: cs, r)

/-- Digits of a natural number literal. -/
def digitsToNat (acc : Nat) : List Char → Nat
  | [] => acc
  | c :: rest => digitsToNat (acc * 10 + (c.toNat - 48)) rest

mutual

/-- Parse one JSON value (fuel-bounded recursive descent). -/
def parseVal : Nat → List Char → Option (Json × List Char)
  | 0, _ => none
  | fuel + 1, s =>
    let s := s.dropWhile jsonWs
    match s with
    | [] => none
    | c :: rest =>
      if c = '"' then
        match parseStrBody rest with
        | some (cs, r) => some (Json.str cs, r)
        | none => none
      else if c = lbrace then
        parseObjItems fuel true rest
      else if c = '[' then
        parseArrItems fuel true rest
      else if c = 'n' then
        if ("ull".data).isPrefixOf rest then some (Json.null, rest.drop 3) else none
      else if c = 't' then
        if ("rue".data).isPrefixOf rest then some (Json.bool true, rest.drop 3) else none
      else if c = 'f' then
        if ("alse".data).isPrefixOf rest then some (Json.bool false, rest.drop 4) else none
      else if c = '-' then
        let ds := rest.takeWhile Char.isDigit
        if ds.isEmpty then none
        else
          let r := rest.drop ds.length
          if r.head?.any (fun d => d = '.' || d = 'e' || d = 'E') then none
          else some (Json.num (-(digitsToNat 0 ds : Int)), r)
      else if c.isDigit then
        let ds := (c :: rest).takeWhile Char.isDigit
        let r := (c :: rest).drop ds.length
        if r.head?.any (fun d => d = '.' || d = 'e' || d = 'E') then none
        else some (Json.num (digitsToNat 0 ds : Int), r)
      else none

/-- Items of a JSON array; `first` is true right after the opening
bracket (an immediate closing bracket is then allowed). -/
def parseArrItems : Nat → Bool → List Char → Option (Json × List Char)
  | 0, _, _ => none
  | fuel + 1, first, s =>
    let t := s.dropWhile jsonWs
    if first && t.head? = some ']' then some (Json.arr [], t.drop 1)
    else
      match parseVal fuel s with
      | none => none
      | some (v, r) =>
        let r := r.dropWhile jsonWs
        match r with
        | ',' :: r2 =>
          match parseArrItems fuel false r2 with
          | some (Json.arr vs, r3) => some (Json.arr (v :: vs), r3)
          | _ => none
        | ']' :: r2 => some (Json.arr [v], r2)
        | _ => none

/-- Members of a JSON object; `first` as in parseArrItems. -/
def parseObjItems : Nat → Bool → List Char → Option (Json × List Char)
  | 0, _, _ => none
  | fuel + 1, first, s =>
    let t := s.dropWhile jsonWs
    if first && t.head? = some rbrace then some (Json.obj [], t.drop 1)
    else
      match t with
      | '"' :: rest =>
        match parseStrBody rest with
        | none => none
        | some (key, r) =>
          let r := r.dropWhile jsonWs
          match r with
          | ':' :: r2 =>
            match parseVal fuel r2 with
            | none => none
            | some (v, r3) =>
              let r3 := r3.dropWhile jsonWs
              match r3 with
              | ',' :: r4 =>
                match parseObjItems fuel false r4 with
                | some (Json.obj fs, r5) => some (Json.obj ((key, v) :: fs), r5)
                | _ => none
              | c :: r4 => if c = rbrace then some (Json.obj [(key, v)], r4) else none
              | _ => none
          | _ => none
      | _ => none

end

/-- Python json.loads: parse one value and require only whitespace after. -/
def jsonParse (s : List Char) : Option Json :=
  match parseVal (s.length + 1) s with
  | some (v, rest) => if (rest.dropWhile jsonWs).isEmpty then some v else none
  | none => none

/-- Python truthiness of a decoded JSON value. -/
def jsonTruthy : Json → Bool
  | .null => false
  | .bool b => b
  | .num n => n != 0
  | .str s => !s.isEmpty
  | .arr xs => !xs.isEmpty
  | .obj fs => !fs.isEmpty

/-- Python dict lookup on decoded JSON: duplicate keys keep the last value. -/
def jsonGet (fields : List (List Char × Json)) (key : List Char) : Option Json :=
  (fields.reverse.find? (fun p => p.1 == key)).map (·.2)

/- ===================================================================
   Regex-like matchers used by extract_sql_from_response
   (src/app.py lines 1128-1235).  Each models one re.search pattern of
   the source, with its leftmost-match and greedy/non-greedy behavior
   spelt out explicitly.
   =================================================================== -/

/-- Case-insensitive prefix match (ASCII folding, as re.IGNORECASE on
the patterns used here). -/
def ciIsPrefixOf : List Char → List Char → Bool
  | [], _ => true
  | _ :: _, [] => false
  | p :: ps, c :: cs => (p.toLower == c.toLower) && ciIsPrefixOf ps cs

/-- Drop a case-insensitive prefix, if present. -/
def ciDropPrefix (pat s : List Char) : Option (List Char) :=
  if ciIsPrefixOf pat s then some (s.drop pat.length) else none

/-- The closing fence marker (three backticks). -/
def fenceClose : List Char := "```".data

/-- The json fence opener. -/
def fenceJsonOpen : List Char := "```json".data

/-- The sql fence opener. -/
def fenceSqlOpen : List Char := "```sql".data

/-- Scan for the non-greedy end of the braced group in the json-fence
pattern: the first closing brace from which, after optional whitespace,
a closing fence follows; returns the characters before that brace. -/
def scanToCloseBrace : List Char → Option (List Char)
  | [] => none
  | c :: rest =>
    if c = rbrace && fenceClose.isPrefixOf (rest.dropWhile pyIsSpace) then some []
    else
      match scanToCloseBrace rest with
      | some body => some (c :: body)
      | none => none

/-- Try the json-fence pattern (fence opener, whitespace, a braced group
taken non-greedily, whitespace, closing fence) at the head of s; returns
the braced group. -/
def matchJsonFenceAt (s : List Char) : Option (List Char) :=
  if fenceJsonOpen.isPrefixOf s then
    let t := (s.drop fenceJsonOpen.length).dropWhile pyIsSpace
    match t with
    | c :: u =>
      if c = lbrace then
        match scanToCloseBrace u with
        | some body => some (lbrace :: body ++ [rbrace])
        | none => none
      else none
    | [] => none
  else none

/-- Leftmost match of the json-fence pattern (re.search scans start
positions left to right). -/
def findJsonFence : List Char → Option (List Char)
  | [] => none
  | c :: rest =>
    match matchJsonFenceAt (c :: rest) with
    | some g => some g
    | none => findJsonFence rest

/-- Scan for the non-greedy end of the sql-fence body: the shortest
prefix after which, skipping whitespace, a closing fence follows. -/
def scanToFence (l : List Char) : Option (List Char) :=
  if fenceClose.isPrefixOf (l.dropWhile pyIsSpace) then some []
  else
    match l with
    | [] => none
    | c :: rest =>
      match scanToFence rest with
      | some body => some (c :: body)
      | none => none

/-- Try the sql-fence pattern at the head of s; returns the fenced body
with surrounding whitespace consumed by the pattern. -/
def matchSqlFenceAt (s : List Char) : Option (List Char) :=
  if fenceSqlOpen.isPrefixOf s then
    scanToFence ((s.drop fenceSqlOpen.length).dropWhile pyIsSpace)
  else none

/-- Leftmost match of the sql-fence pattern. -/
def findSqlFence : List Char → Option (List Char)
  | [] => none
  | c :: rest =>
    match matchSqlFenceAt (c :: rest) with
    | some g => some g
    | none => findSqlFence rest

/-- Non-greedy scan for the end of a SELECT span: the first semicolon
(included), or end of input, or the position just before a final newline
(the regex anchor also matches there). -/
def scanSelectEnd : List Char → List Char
  | [] => []
  | c :: rest =>
    if c = ';' then [';']
    else if c = '\n' && rest.isEmpty then []
    else c :: scanSelectEnd rest

/-- Try the SELECT-span pattern (keyword, at least one whitespace, then
a non-greedy body up to semicolon or end) at the head of s. -/
def matchSelectAt (s : List Char) : Option (List Char) :=
  if ciIsPrefixOf ("select".data) s then
    let after := s.drop 6
    let w := after.takeWhile pyIsSpace
    if w.isEmpty then none
    else some (s.take 6 ++ w ++ scanSelectEnd (after.drop w.length))
  else none

/-- Leftmost match of the SELECT-span pattern. -/
def findSelectSpan : List Char → Option (List Char)
  | [] => none
  | c :: rest =>
    match matchSelectAt (c :: rest) with
    | some g => some g
    | none => findSelectSpan rest

/-- Try one statement pattern (keyword, one-or-more whitespace, at least
one non-semicolon character, semicolon) at the head of s.  The
whitespace run and the non-semicolon body divide the characters between
the keyword and the first following semicolon; a match exists exactly
when the first character after the keyword is whitespace and a semicolon
occurs at offset two or later. -/
def matchStmtAt (kw : List Char) (s : List Char) : Option (List Char) :=
  if ciIsPrefixOf kw s then
    let after := s.drop kw.length
    match after.head? with
    | some c1 =>
      if pyIsSpace c1 then
        let j := (after.takeWhile (· ≠ ';')).length
        if 2 ≤ j && (after.drop j).head? = some ';' then
          some (s.take kw.length ++ after.take j ++ [';'])
        else none
      else none
    | none => none
  else none

/-- Leftmost match of one statement pattern. -/
def findStmt (kw : List Char) : List Char → Option (List Char)
  | [] => none
  | c :: rest =>
    match matchStmtAt kw (c :: rest) with
    | some g => some g
    | none => findStmt kw rest

/- ===================================================================
   extract_sql_from_response  (src/app.py lines 1128-1235)
   =================================================================== -/

/-- Field names probed, in order, on a decoded JSON object. -/
def sqlFieldNames : List (List Char) :=
  ["sqlquery".data, "reviewed_sqlquery".data, "sql_query".data, "query".data]

/-- Value of the first probed field name present in the object. -/
def findSqlField (fs : List (List Char × Json)) : Option Json :=
  (sqlFieldNames.filterMap (fun k => jsonGet fs k)).head?

/-- Result returned once a field is found: a string value is cleaned; a
falsy value makes clean_sql_content return empty; a truthy non-string
value raises in the source (len of a non-sized value) and the outer
handler then returns the cleaned whole text. -/
def fieldValueResult (full : List Char) : Json → List Char
  | Json.str s => cleanList s
  | Json.null => if jsonTruthy Json.null then cleanList full else []
  | Json.bool b => if jsonTruthy (Json.bool b) then cleanList full else []
  | Json.num n => if jsonTruthy (Json.num n) then cleanList full else []
  | Json.arr xs => if jsonTruthy (Json.arr xs) then cleanList full else []
  | Json.obj fs => if jsonTruthy (Json.obj fs) then cleanList full else []

/-- Strategy 1: the raw text, stripped, starts with an opening brace;
json.loads it and probe the field names. -/
def strat1 (full : List Char) : Option (List Char) :=
  if (full.dropWhile pyIsSpace).head? = some lbrace then
    match jsonParse full with
    | some (Json.obj fs) =>
      match findSqlField fs with
      | some v => some (fieldValueResult full v)
      | none => none
    | some _ => none
    | none => none
  else none

/-- Strategy 2: a json-fenced block is present; json.loads its braced
group and probe the field names. -/
def strat2 (full : List Char) : Option (List Char) :=
  match findJsonFence full with
  | some grp =>
    match jsonParse grp with
    | some (Json.obj fs) =>
      match findSqlField fs with
      | some v => some (fieldValueResult full v)
      | none => none
    | some _ => none
    | none => none
  | none => none

/-- Strategy 3: an sql-fenced block is present; clean its body. -/
def strat3 (full : List Char) : Option (List Char) :=
  (findSqlFence full).map cleanList

/-- Strategy 4: a SELECT span is present; clean it. -/
def strat4 (full : List Char) : Option (List Char) :=
  (findSelectSpan full).map cleanList

/-- Strategy 5: clean the whole text and keep it if it mentions SELECT. -/
def strat5 (full : List Char) : Option (List Char) :=
  if containsSub ("SELECT".data) ((cleanList full).map Char.toUpper)
  then some (cleanList full) else none

/-- Keywords of the five statement patterns, in source order. -/
def stmtKeywords : List (List Char) :=
  ["select".data, "with".data, "insert".data, "update".data, "delete".data]

/-- Strategy 6: the first statement pattern that matches, cleaned. -/
def strat6 (full : List Char) : Option (List Char) :=
  ((stmtKeywords.filterMap (fun kw => findStmt kw full)).head?).map cleanList

/-- extract_sql_from_response from src/app.py: the ordered strategy
cascade.  Each strategy returns as soon as it locates a candidate (a
parsed field, a fenced block, a pattern match); the cleaned whole text
is the last resort.  The source's try/except means a strategy-internal
parse failure falls through to the next strategy, which the strategies
above already encode. -/
def extract_sql_from_response (response_text : String) : String :=
  let full := response_text.data
  String.mk <|
    match strat1 full with
    | some r => r
    | none =>
      match strat2 full with
      | some r => r
      | none =>
        match strat3 full with
        | some r => r
        | none =>
          match strat4 full with
          | some r => r
          | none =>
            match strat5 full with
            | some r => r
            | none =>
              match strat6 full with
              | some r => r
              | none => cleanList full

/-- Ordered-cascade combinator: run the strategies in order and return
the first located result, even an empty one; otherwise the fallback. -/
def firstLocated (strats : List (List Char → Option (List Char)))
    (fallback : List Char → List Char) (full : List Char) : List Char :=
  match strats with
  | [] => fallback full
  | f :: fs =>
    match f full with
    | some r => r
    | none => firstLocated fs fallback full

/-- Skip-on-empty cascade combinator, as the claim describes the
extractor: a strategy whose cleaned result is empty does not stop the
cascade. -/
def firstNonEmpty (strats : List (List Char → Option (List Char)))
    (fallback : List Char → List Char) (full : List Char) : List Char :=
  match strats with
  | [] => fallback full
  | f :: fs =>
    match f full with
    | some r => if r.isEmpty then firstNonEmpty fs fallback full else r
    | none => firstNonEmpty fs fallback full

/-- The extractor's strategy list, in source order. -/
def extractStrategies : List (List Char → Option (List Char)) :=
  [strat1, strat2, strat3, strat4, strat5, strat6]

/- ===================================================================
   The compliance gate (src/app.py lines 884-890 in
   continue_with_generated_sql and lines 672-677 in process_manual_sql;
   the two sites carry the same expression and are transliterated
   separately so that their agreement is a theorem, not a modelling
   choice).
   =================================================================== -/

/-- Compliance decision as written in continue_with_generated_sql. -/
def continue_is_compliant (compliance_report : String) : Bool :=
  containsStr "合规通过" compliance_report
  || containsStr "compliant" (pyLower compliance_report)
  || (containsStr "合规" compliance_report
      && !containsStr "不合规" compliance_report
      && !containsStr "违规" compliance_report)

/-- Compliance decision as written in process_manual_sql. -/
def manual_is_compliant (compliance_report : String) : Bool :=
  containsStr "合规通过" compliance_report
  || containsStr "compliant" (pyLower compliance_report)
  || (containsStr "合规" compliance_report
      && !containsStr "不合规" compliance_report
      && !containsStr "违规" compliance_report)

/- ===================================================================
   Query preprocessing of run_query_to_dataframe
   (src/app.py lines 53-114): the dialect rewrites applied to the SQL
   text before it is executed.  The sqlite execution itself is the
   external store.
   =================================================================== -/

/-- Python str.replace (all non-overlapping occurrences, left to right),
fuel-bounded by the input length. -/
def pyReplaceGo (pat rep : List Char) : Nat → List Char → List Char
  | 0, l => l
  | _ + 1, [] => []
  | fuel + 1, c :: rest =>
    if !pat.isEmpty && pat.isPrefixOf (c :: rest) then
      rep ++ pyReplaceGo pat rep fuel (List.drop pat.length (c :: rest))
    else c :: pyReplaceGo pat rep fuel rest

/-- Python str.replace. -/
def pyReplace (pat rep l : List Char) : List Char :=
  pyReplaceGo pat rep l.length l

/-- Try the INTERVAL pattern (keyword CURRENT_DATE, optional whitespace,
dash, optional whitespace, keyword INTERVAL, optional whitespace, quote,
digits, optional whitespace, day with optional s, quote; IGNORECASE) at
the head of s; returns the captured digits and the rest after the match. -/
def matchIntervalAt (s : List Char) : Option (List Char × List Char) :=
  match ciDropPrefix ("current_date".data) s with
  | none => none
  | some r1 =>
    match r1.dropWhile pyIsSpace with
    | '-' :: r3 =>
      match ciDropPrefix ("interval".data) (r3.dropWhile pyIsSpace) with
      | none => none
      | some r5 =>
        match r5.dropWhile pyIsSpace with
        | q :: r7 =>
          if isQuoteChar q then
            let digits := r7.takeWhile Char.isDigit
            if digits.isEmpty then none
            else
              match ciDropPrefix ("day".data) ((r7.drop digits.length).dropWhile pyIsSpace) with
              | none => none
              | some r9 =>
                match r9 with
                | c :: r10 =>
                  if c.toLower = 's' then
                    match r10 with
                    | q2 :: r11 => if isQuoteChar q2 then some (digits, r11) else none
                    | [] => none
                  else if isQuoteChar c then some (digits, r10)
                  else none
                | [] => none
          else none
        | [] => none
    | _ => none

/-- Replacement text for one INTERVAL match with the captured digits:
the sqlite relative-date expression. -/
def intervalReplacement (digits : List Char) : List Char :=
  "date(".data ++ [sq] ++ "now".data ++ [sq] ++ ", ".data
    ++ [sq] ++ "-".data ++ digits ++ " days".data ++ [sq] ++ ")".data

/-- The re.sub scan: replace each leftmost INTERVAL match and continue
after it. -/
def subIntervalGo : Nat → List Char → List Char
  | 0, l => l
  | _ + 1, [] => []
  | fuel + 1, c :: rest =>
    match matchIntervalAt (c :: rest) with
    | some (digits, after) => intervalReplacement digits ++ subIntervalGo fuel after
    | none => c :: subIntervalGo fuel rest

/-- re.sub of the INTERVAL pattern over the whole query. -/
def subInterval (l : List Char) : List Char := subIntervalGo l.length l

/-- The literal substring tested by the first hardcoded branch. -/
def dashInterval30 : List Char := "- INTERVAL ".data ++ [sq] ++ "30 days".data ++ [sq]

/-- The literal substring tested by the second hardcoded branch. -/
def dashInterval31 : List Char := "- INTERVAL ".data ++ [sq] ++ "31 days".data ++ [sq]

/-- Replace target of the first hardcoded branch. -/
def currentDateInterval30 : List Char :=
  "CURRENT_DATE - INTERVAL ".data ++ [sq] ++ "30 days".data ++ [sq]

/-- Replace target of the second hardcoded branch. -/
def currentDateInterval31 : List Char :=
  "CURRENT_DATE - INTERVAL ".data ++ [sq] ++ "31 days".data ++ [sq]

/-- Replacement of the first hardcoded branch. -/
def date30Replacement : List Char :=
  "date(".data ++ [sq] ++ "now".data ++ [sq] ++ ", ".data ++ [sq] ++ "-30 days".data ++ [sq] ++ ")".data

/-- Replacement of the second hardcoded branch. -/
def date31Replacement : List Char :=
  "date(".data ++ [sq] ++ "now".data ++ [sq] ++ ", ".data ++ [sq] ++ "-31 days".data ++ [sq] ++ ")".data

/-- Query preprocessing of run_query_to_dataframe: the general
IGNORECASE re.sub branch, then the two hardcoded branches.  Each branch
assigns processed_query from the original query, exactly as the source
does. -/
def preprocess_query (query : String) : String :=
  let q := query.data
  let processed1 :=
    if containsSub ("CURRENT_DATE - INTERVAL".data) (q.map Char.toUpper)
    then subInterval q else q
  let processed2 :=
    if containsSub dashInterval30 q
    then pyReplace currentDateInterval30 date30Replacement q else processed1
  let processed3 :=
    if containsSub dashInterval31 q
    then pyReplace currentDateInterval31 date31Replacement q else processed2
  String.mk processed3

/- ===================================================================
   Relevance filter (src/utils/db_simulator.py lines 776-891):
   identify_relevant_tables, get_core_business_tables, and the fallback
   composition used by extract_relevant_metadata.
   =================================================================== -/

/-- The static keyword-to-tables map, in source order. -/
def keyword_table_mapping : List (String × List String) :=
  [ ("销售", ["orders", "order_items", "products"]),
  ("订单", ["orders", "order_items", "customers"]),
  ("收入", ["orders", "order_items", "products"]),
  ("金额", ["orders", "order_items"]),
  ("sales", ["orders", "order_items", "products"]),
  ("revenue", ["orders", "order_items", "products"]),
  ("order", ["orders", "order_items", "customers"]),
  ("产品", ["products", "product_categories", "suppliers", "order_items"]),
  ("商品", ["products", "product_categories", "order_items"]),
  ("product", ["products", "product_categories", "suppliers", "order_items"]),
  ("分类", ["product_categories", "products"]),
  ("category", ["product_categories", "products"]),
  ("客户", ["customers", "customer_segments", "orders"]),
  ("用户", ["customers", "customer_segments", "website_sessions"]),
  ("customer", ["customers", "customer_segments", "orders"]),
  ("user", ["customers", "website_sessions"]),
  ("员工", ["employees", "departments", "employee_performance"]),
  ("部门", ["departments", "employees"]),
  ("employee", ["employees", "departments", "employee_performance"]),
  ("department", ["departments", "employees"]),
  ("评价", ["product_reviews", "products", "customers"]),
  ("评论", ["product_reviews", "products"]),
  ("review", ["product_reviews", "products", "customers"]),
  ("rating", ["product_reviews", "products"]),
  ("支持", ["customer_support_tickets", "customers", "employees"]),
  ("工单", ["customer_support_tickets", "customers"]),
  ("support", ["customer_support_tickets", "customers", "employees"]),
  ("ticket", ["customer_support_tickets", "customers"]),
  ("网站", ["website_sessions", "customers"]),
  ("会话", ["website_sessions", "customers"]),
  ("website", ["website_sessions", "customers"]),
  ("session", ["website_sessions", "customers"]),
  ("营销", ["marketing_campaigns", "campaign_interactions", "customers"]),
  ("活动", ["marketing_campaigns", "campaign_interactions"]),
  ("marketing", ["marketing_campaigns", "campaign_interactions", "customers"]),
  ("campaign", ["marketing_campaigns", "campaign_interactions"]),
  ("最近", ["orders", "order_items", "website_sessions"]),
  ("今天", ["orders", "website_sessions"]),
  ("本月", ["orders", "order_items"]),
  ("趋势", ["orders", "order_items", "website_sessions"]),
  ("recent", ["orders", "order_items", "website_sessions"]),
  ("today", ["orders", "website_sessions"]),
  ("trend", ["orders", "order_items", "website_sessions"]),
  ("总额", ["orders", "order_items"]),
  ("数量", ["orders", "order_items", "products", "customers"]),
  ("平均", ["orders", "order_items", "product_reviews"]),
  ("排行", ["orders", "order_items", "products"]),
  ("total", ["orders", "order_items"]),
  ("count", ["orders", "order_items", "products", "customers"]),
  ("average", ["orders", "order_items", "product_reviews"]),
  ("top", ["orders", "order_items", "products"]),
  ("rank", ["orders", "order_items", "products"]) ]

/-- identify_relevant_tables from src/utils/db_simulator.py: keyword
matches first, then direct table-name matches, each appended only if the
table is not already collected; truncated to five entries. -/
def identify_relevant_tables (user_query : String) (all_tables : List String) : List String :=
  let query_lower := pyLower user_query
  let afterKeywords :=
    keyword_table_mapping.foldl
      (fun acc p =>
        if containsStr p.1 query_lower then
          p.2.foldl
            (fun acc t => if t ∈ all_tables ∧ t ∉ acc then acc ++ [t] else acc)
            acc
        else acc)
      []
  let afterNames :=
    all_tables.foldl
      (fun acc t =>
        if containsStr (pyLower t) query_lower ∧ t ∉ acc then acc ++ [t] else acc)
      afterKeywords
  afterNames.take 5

/-- get_core_business_tables from src/utils/db_simulator.py. -/
def get_core_business_tables (all_tables : List String) : List String :=
  (["orders", "order_items", "products", "customers"]).filter
    (fun t => decide (t ∈ all_tables))

/-- Table-selection step of extract_relevant_metadata: the identified
tables, or the core-table fallback when none were identified. -/
def select_relevant_tables (user_query : String) (all_tables : List String) : List String :=
  let relevant := identify_relevant_tables user_query all_tables
  if relevant.isEmpty then get_core_business_tables all_tables else relevant

/- ===================================================================
   Session state, analysis records and the pipeline orchestrator
   (src/app.py: create_analysis_record, add_to_history, the delete
   button of render_analysis_cell, execute_new_analysis,
   continue_with_generated_sql, process_manual_sql).

   The external collaborators (crew kickoff calls, with the
   json-report unwrapping at their boundary, and the sqlite execution
   wrapped by run_query_to_dataframe, which catches every exception)
   are inputs of the model: each crew call either returns text or
   raises, and the executor totally returns an optional table plus a
   text synopsis.  UI calls (st.write and friends) are treated as
   non-failing, per the spec's scope.  Costs are modelled as rationals.
   =================================================================== -/

/-- Tabular query result. -/
def DataFrame : Type := List (List String)

instance : DecidableEq DataFrame := by
  unfold DataFrame
  infer_instance

/-- Record lifecycle states assigned by the source. -/
inductive Status where
  | generating
  | generated
  | pending_execution
  | completed
  | query_failed
  | compliance_failed
  | error
deriving DecidableEq

/-- An analysis record as built by create_analysis_record; status is
absent until first assigned. -/
structure AnalysisRecord where
  id : Nat
  user_prompt : String
  generated_sql : Option String := none
  reviewed_sql : Option String := none
  manual_sql : Option String := none
  compliance_report : Option String := none
  query_result : Option String := none
  query_dataframe : Option DataFrame := none
  cost : ℚ := 0
  manual_intervention : Bool := false
  status : Option Status := none
  error_message : Option String := none
deriving DecidableEq

/-- Session state: the history list and the incrementally maintained
cost aggregate. -/
structure Session where
  analysis_history : List AnalysisRecord := []
  llm_cost : ℚ := 0
deriving DecidableEq

/-- add_to_history from src/app.py: append the record and add its cost
to the aggregate. -/
def add_to_history (s : Session) (record : AnalysisRecord) : Session :=
  { analysis_history := s.analysis_history ++ [record],
    llm_cost := s.llm_cost + record.cost }

/-- The delete button of render_analysis_cell: filter the record out of
the history; the source does not touch llm_cost here. -/
def delete_record (s : Session) (cell_id : Nat) : Session :=
  { s with analysis_history := s.analysis_history.filter (fun r => r.id != cell_id) }

/-- Outcomes of the external collaborator calls made by one run: the
review crew, the compliance step (crew call plus report-field unwrap),
and the query executor (total: run_query_to_dataframe catches all). -/
structure CollabIO where
  review_output : Except String String
  compliance_output : Except String String
  run_query : String → Option DataFrame × String

/-- Result of one modelled run: the record threaded through the stages
(none when the run bailed out before creating one), the updated
session, the record statuses assigned in order, and how many times the
executor was consulted. -/
structure RunOutcome where
  record? : Option AnalysisRecord
  session : Session
  statusTrace : List Status
  execCalls : Nat

/-- Error message stored on a failed execution, following the source's
text_result handling. -/
def queryFailedMessage (text_result : String) : String :=
  if text_result ≠ "" then text_result
  else "SQL查询执行失败，但未返回具体错误信息"

/-- continue_with_generated_sql from src/app.py (lines 788-1004): SQL
review, compliance check, gate, execution, and the history append that
every path reaches.  The modelled raise sites are the two crew calls;
the outer handler turns them into an error record that is still
appended. -/
def continue_with_generated_sql (generated_sql : String) (record : AnalysisRecord)
    (io : CollabIO) (s : Session) : RunOutcome :=
  if ¬ pyBlank generated_sql then
    match io.review_output with
    | .error e =>
      let rec1 := { record with
        status := some .error,
        error_message := some ("查询处理过程中发生错误: " ++ e) }
      ⟨some rec1, add_to_history s rec1, [.error], 0⟩
    | .ok review_text =>
      let reviewed_sql := extract_sql_from_response review_text
      let record := { record with reviewed_sql := some reviewed_sql }
      if pyBlank reviewed_sql then
        let rec1 := { record with
          status := some .error,
          error_message := some "SQL提取失败" }
        ⟨some rec1, add_to_history s rec1, [.error], 0⟩
      else
        match io.compliance_output with
        | .error e =>
          let rec1 := { record with
            status := some .error,
            error_message := some ("查询处理过程中发生错误: " ++ e) }
          ⟨some rec1, add_to_history s rec1, [.error], 0⟩
        | .ok compliance_report =>
          let record := { record with
            compliance_report := some compliance_report,
            status := some .pending_execution }
          if continue_is_compliant compliance_report then
            let res := io.run_query reviewed_sql
            let record := { record with
              query_result := some res.2,
              query_dataframe := res.1 }
            match res.1 with
            | some _ =>
              let rec1 := { record with status := some .completed }
              ⟨some rec1, add_to_history s rec1, [.pending_execution, .completed], 1⟩
            | none =>
              let rec1 := { record with
                status := some .query_failed,
                error_message := some (queryFailedMessage res.2) }
              ⟨some rec1, add_to_history s rec1, [.pending_execution, .query_failed], 1⟩
          else
            let rec1 := { record with status := some .compliance_failed }
            ⟨some rec1, add_to_history s rec1, [.pending_execution, .compliance_failed], 0⟩
  else
    ⟨some record, add_to_history s record, [], 0⟩

/-- execute_new_analysis from src/app.py (lines 736-786): bail out on a
blank prompt, otherwise create the record, run generation, extract, and
either continue the pipeline or append an error record.  The modelled
raise site is the generation crew call. -/
def execute_new_analysis (user_prompt : String) (new_id : Nat)
    (gen_output : Except String String) (io : CollabIO) (s : Session) : RunOutcome :=
  if pyBlank user_prompt then ⟨none, s, [], 0⟩
  else
    let record : AnalysisRecord :=
      { id := new_id, user_prompt := user_prompt, cost := 0, status := some .generating }
    match gen_output with
    | .error _ =>
      let rec1 := { record with status := some .error }
      ⟨some rec1, add_to_history s rec1, [.generating, .error], 0⟩
    | .ok gen_text =>
      let raw_sql := extract_sql_from_response gen_text
      let record := { record with generated_sql := some raw_sql }
      if raw_sql ≠ "" then
        let r := continue_with_generated_sql raw_sql record io s
        { r with statusTrace := .generating :: r.statusTrace }
      else
        let rec1 := { record with status := some .error }
        ⟨some rec1, add_to_history s rec1, [.generating, .error], 0⟩

/-- process_manual_sql from src/app.py (lines 593-733): guard on a
non-blank manual SQL, review, compliance, gate, execution, append.
This path has no exception handler, so a collaborator exception
propagates (Except.error) and nothing is appended. -/
def process_manual_sql (manual_sql : String) (user_request : String) (new_id : Nat)
    (io : CollabIO) (s : Session) : Except String RunOutcome :=
  if ¬ pyBlank manual_sql then
    match io.review_output with
    | .error e => .error e
    | .ok review_text =>
      let reviewed_sql := extract_sql_from_response review_text
      match io.compliance_output with
      | .error e => .error e
      | .ok compliance_report =>
        let record : AnalysisRecord :=
          { id := new_id,
            user_prompt := user_request,
            generated_sql := some manual_sql,
            reviewed_sql := some reviewed_sql,
            compliance_report := some compliance_report,
            cost := 0,
            manual_intervention := true,
            manual_sql := some manual_sql,
            status := some .pending_execution }
        if manual_is_compliant compliance_report then
          let res := io.run_query reviewed_sql
          let record := { record with
            query_result := some res.2,
            query_dataframe := res.1 }
          match res.1 with
          | some _ =>
            let rec1 := { record with status := some .completed }
            .ok ⟨some rec1, add_to_history s rec1, [.pending_execution, .completed], 1⟩
          | none =>
            let rec1 := { record with
              status := some .query_failed,
              error_message := some (queryFailedMessage res.2) }
            .ok ⟨some rec1, add_to_history s rec1, [.pending_execution, .query_failed], 1⟩
        else
          let rec1 := { record with status := some .compliance_failed }
          .ok ⟨some rec1, add_to_history s rec1, [.pending_execution, .compliance_failed], 0⟩
  else .ok ⟨none, s, [], 0⟩

/-- A concrete collaborator stub used by closed witness statements. -/
def ioStub : CollabIO :=
  { review_output := .ok "SELECT 1;",
    compliance_output := .ok "合规通过",
    run_query := fun _ => (some [["1"]], "ok") }

/-- A collaborator stub whose compliance report rejects the query. -/
def ioStubReject : CollabIO :=
  { review_output := .ok "SELECT 1;",
    compliance_output := .ok "存在违规风险",
    run_query := fun _ => (some [["1"]], "ok") }

/-- Normal-form whitespace: every whitespace character is a plain space
and no two whitespace characters are adjacent (the shape produced by the
collapse-and-strip step of clean_sql_content). -/
def spaceNormal (l : List Char) : Prop :=
  (∀ c ∈ l, pyIsSpace c = true → c = ' ')
  ∧ List.Chain' (fun a b => ¬(pyIsSpace a = true ∧ pyIsSpace b = true)) l

/- ===================================================================
   Theorems.  Helper lemmas first, then one theorem per claim (with
   witnesses and counterexamples where required).
   =================================================================== -/

theorem dropWhile_eq_self_of_head {p : Char → Bool} {l : List Char}
    (h : ∀ c, l.head? = some c → p c = false) : l.dropWhile p = l := by
  cases l with
  | nil => rfl
  | cons c rest => simp [List.dropWhile_cons, h c rfl]

theorem head_dropWhile_false {p : Char → Bool} {l : List Char} {c : Char}
    (h : (l.dropWhile p).head? = some c) : p c = false := by
  induction l with
  | nil => simp [List.dropWhile] at h
  | cons a rest ih =>
    rw [List.dropWhile_cons] at h
    by_cases hp : p a = true
    · exact ih (by simpa [hp] using h)
    · simp [hp] at h
      subst h
      simpa using hp

theorem dropTrailing_pre (p : Char → Bool) (l : List Char) :
    dropTrailing p l <+: l := by
  unfold dropTrailing
  obtain ⟨t, ht⟩ := List.dropWhile_suffix (l := l.reverse) p
  refine ⟨t.reverse, ?_⟩
  have := congrArg List.reverse ht
  simpa using this

theorem dropTrailing_getLast_false {p : Char → Bool} {l : List Char} {c : Char}
    (h : (dropTrailing p l).getLast? = some c) : p c = false := by
  unfold dropTrailing at h
  rw [List.getLast?_reverse] at h
  exact head_dropWhile_false h

theorem dropTrailing_eq_self_of_getLast {p : Char → Bool} {l : List Char}
    (h : ∀ c, l.getLast? = some c → p c = false) : dropTrailing p l = l := by
  unfold dropTrailing
  rw [dropWhile_eq_self_of_head, List.reverse_reverse]
  intro c hc
  exact h c (by rwa [List.head?_reverse] at hc)

theorem prefix_head?_eq {l₁ l₂ : List Char} (h : l₁ <+: l₂) (hne : l₁ ≠ []) :
    l₂.head? = l₁.head? := by
  obtain ⟨t, rfl⟩ := h
  cases l₁ with
  | nil => exact absurd rfl hne
  | cons a u => rfl

theorem dropTrailing_ne_nil {p : Char → Bool} {l : List Char} {h : Char}
    (hh : l.head? = some h) (hp : p h = false) : dropTrailing p l ≠ [] := by
  intro he
  unfold dropTrailing at he
  have hnil : List.dropWhile p l.reverse = [] := by
    have := congrArg List.reverse he
    simpa using this
  rw [List.dropWhile_eq_nil_iff] at hnil
  have hmem : h ∈ l.reverse := by
    simpa using List.mem_of_mem_head? (by rw [hh]; exact rfl)
  rw [hnil h hmem] at hp
  exact absurd hp (by simp)

theorem dropTrailing_head {p : Char → Bool} {l : List Char} {h : Char}
    (hh : l.head? = some h) (hp : p h = false) :
    (dropTrailing p l).head? = some h := by
  have hne := dropTrailing_ne_nil hh hp
  rw [← prefix_head?_eq (dropTrailing_pre p l) hne]
  exact hh

theorem pyStripGen_getLast_false {p : Char → Bool} {l : List Char} {c : Char}
    (h : (pyStripGen p l).getLast? = some c) : p c = false :=
  dropTrailing_getLast_false h

theorem pyStripGen_head_false {p : Char → Bool} {l : List Char} {c : Char}
    (h : (pyStripGen p l).head? = some c) : p c = false := by
  unfold pyStripGen at h
  obtain ⟨t, ht⟩ := dropTrailing_pre p (l.dropWhile p)
  have : (l.dropWhile p).head? = some c := by
    rw [← ht, List.head?_append, h]
    rfl
  exact head_dropWhile_false this

theorem pyStripGen_eq_self {p : Char → Bool} {l : List Char}
    (h1 : ∀ c, l.head? = some c → p c = false)
    (h2 : ∀ c, l.getLast? = some c → p c = false) : pyStripGen p l = l := by
  unfold pyStripGen
  rw [dropWhile_eq_self_of_head h1, dropTrailing_eq_self_of_getLast h2]

theorem pyStripGen_head {p : Char → Bool} {l : List Char} {h : Char}
    (hh : l.head? = some h) (hp : p h = false) :
    (pyStripGen p l).head? = some h := by
  unfold pyStripGen
  have : (l.dropWhile p).head? = some h := by
    rw [dropWhile_eq_self_of_head]
    · exact hh
    · intro c hc
      rw [hh] at hc
      cases hc
      exact hp
  exact dropTrailing_head this hp

theorem pyStripGen_inf (p : Char → Bool) (l : List Char) :
    pyStripGen p l <:+: l := by
  unfold pyStripGen
  exact List.IsInfix.trans (dropTrailing_pre p _).isInfix
    (List.dropWhile_suffix p).isInfix

theorem chain'_of_infix {R : Char → Char → Prop} {l₁ l₂ : List Char}
    (h : List.Chain' R l₂) (hinf : l₁ <:+: l₂) : List.Chain' R l₁ := by
  obtain ⟨s, t, rfl⟩ := hinf
  rw [List.append_assoc, List.chain'_append] at h
  rw [List.chain'_append] at h
  exact h.2.1.1

theorem hasDD_cons (c : Char) (l : List Char) :
    hasDD (c :: l) = ((decide (c = '-') && decide (l.head? = some '-')) || hasDD l) := rfl

theorem hasDD_append_cases {a b : List Char} (h : hasDD (a ++ b) = true) :
    hasDD a = true ∨ hasDD b = true ∨
      (a.getLast? = some '-' ∧ b.head? = some '-') := by
  induction a with
  | nil => exact Or.inr (Or.inl (by simpa using h))
  | cons c a' ih =>
    rw [List.cons_append, hasDD_cons] at h
    rcases Bool.or_eq_true_iff.mp h with h1 | h2
    · rw [Bool.and_eq_true, decide_eq_true_eq, decide_eq_true_eq] at h1
      cases a' with
      | nil =>
        exact Or.inr (Or.inr ⟨by simp [h1.1], by simpa using h1.2⟩)
      | cons d a'' =>
        refine Or.inl ?_
        rw [hasDD_cons]
        simp only [Bool.or_eq_true, Bool.and_eq_true, decide_eq_true_eq]
        exact Or.inl ⟨h1.1, by simpa using h1.2⟩
    · rcases ih h2 with h3 | h3 | h3
      · refine Or.inl ?_
        rw [hasDD_cons, h3]
        simp
      · exact Or.inr (Or.inl h3)
      · refine Or.inr (Or.inr ⟨?_, h3.2⟩)
        cases a' with
        | nil => simp at h3
        | cons d a'' =>
          rw [List.getLast?_cons_cons]
          exact h3.1

theorem hasDD_append_left {a b : List Char} (h : hasDD a = true) :
    hasDD (a ++ b) = true := by
  induction a with
  | nil => simp [hasDD] at h
  | cons c a' ih =>
    rw [hasDD_cons] at h
    rw [List.cons_append, hasDD_cons]
    rcases Bool.or_eq_true_iff.mp h with h1 | h2
    · rw [Bool.and_eq_true, decide_eq_true_eq, decide_eq_true_eq] at h1
      cases a' with
      | nil => simp at h1
      | cons d a'' =>
        simp only [Bool.or_eq_true, Bool.and_eq_true, decide_eq_true_eq]
        exact Or.inl ⟨h1.1, by simpa using h1.2⟩
    · rw [ih h2]
      simp

theorem hasDD_append_right {a b : List Char} (h : hasDD b = true) :
    hasDD (a ++ b) = true := by
  induction a with
  | nil => simpa using h
  | cons c a' ih =>
    rw [List.cons_append, hasDD_cons, ih]
    simp

theorem hasDD_infix {l₁ l₂ : List Char} (hinf : l₁ <:+: l₂)
    (h : hasDD l₂ = false) : hasDD l₁ = false := by
  obtain ⟨s, t, rfl⟩ := hinf
  by_contra hc
  rw [Bool.not_eq_false] at hc
  rw [hasDD_append_left (hasDD_append_right hc)] at h
  exact absurd h (by simp)

theorem startsWithDD_hasDD {l : List Char} (h : startsWithDD l = true) :
    hasDD l = true := by
  cases l with
  | nil => simp [startsWithDD] at h
  | cons c rest =>
    unfold startsWithDD at h
    rw [Bool.and_eq_true, decide_eq_true_eq, decide_eq_true_eq] at h
    rw [hasDD_cons]
    simp only [Bool.or_eq_true, Bool.and_eq_true, decide_eq_true_eq]
    exact Or.inl ⟨by simpa using h.1, by simpa using h.2⟩

theorem takeBeforeDD_head? {l : List Char} {x : Char}
    (h : (takeBeforeDD l).head? = some x) : l.head? = some x := by
  cases l with
  | nil => simp [takeBeforeDD] at h
  | cons c rest =>
    unfold takeBeforeDD at h
    split at h
    · simp at h
    · simpa using h

theorem takeBeforeDD_head_eq {l : List Char} (hne : l ≠ [])
    (hs : startsWithDD l = false) : (takeBeforeDD l).head? = l.head? := by
  cases l with
  | nil => exact absurd rfl hne
  | cons c rest =>
    unfold takeBeforeDD
    unfold startsWithDD at hs
    split
    · rename_i hcond
      rw [Bool.and_eq_true, decide_eq_true_eq, decide_eq_true_eq] at hcond
      exfalso
      rw [Bool.and_eq_false_iff] at hs
      rcases hs with h1 | h1 <;> simp [hcond.1, hcond.2] at h1
    · rfl

theorem takeBeforeDD_noDD (l : List Char) : hasDD (takeBeforeDD l) = false := by
  induction l with
  | nil => rfl
  | cons c rest ih =>
    unfold takeBeforeDD
    split
    · rfl
    · rename_i hcond
      rw [hasDD_cons, ih, Bool.or_false, Bool.and_eq_false_iff]
      by_cases hc : c = '-'
      · refine Or.inr ?_
        rw [decide_eq_false_iff_not]
        intro hhd
        have := takeBeforeDD_head? hhd
        rw [Bool.and_eq_true, decide_eq_true_eq, decide_eq_true_eq] at hcond
        exact hcond ⟨hc, this⟩
      · exact Or.inl (by simpa using hc)

theorem collapseWs_mem {l : List Char} :
    ∀ c ∈ collapseWs l, pyIsSpace c = true → c = ' ' := by
  induction l with
  | nil => intro c hc; simp [collapseWs] at hc
  | cons a rest ih =>
    intro c hc hws
    unfold collapseWs at hc
    split at hc
    · split at hc
      · exact ih c hc hws
      · rcases List.mem_cons.mp hc with h | h
        · exact h
        · exact ih c h hws
    · rcases List.mem_cons.mp hc with h | h
      · subst h
        rename_i hnws
        exact absurd hws (by simpa using hnws)
      · exact ih c h hws

theorem collapseWs_head_nonWs {c : Char} {r : List Char}
    (h : pyIsSpace c = false) : (collapseWs (c :: r)).head? = some c := by
  unfold collapseWs
  rw [h]
  simp

theorem collapseWs_head_ws :
    ∀ (r : List Char) (c : Char), pyIsSpace c = true →
      (collapseWs (c :: r)).head? = some ' ' := by
  intro r
  induction r with
  | nil => intro c hc; simp [collapseWs, hc]
  | cons d r2 ih =>
    intro c hc
    unfold collapseWs
    rw [hc]
    by_cases hd : pyIsSpace d = true
    · simp only [List.head?_cons, Option.any_some, hd, if_true]
      exact ih d hd
    · simp [hd]

theorem collapseWs_head {l : List Char} {c : Char}
    (hh : l.head? = some c) (hw : pyIsSpace c = false) :
    (collapseWs l).head? = some c := by
  cases l with
  | nil => simp at hh
  | cons a r =>
    simp only [List.head?_cons, Option.some.injEq] at hh
    subst hh
    exact collapseWs_head_nonWs hw

theorem collapseWs_chain' (l : List Char) :
    List.Chain' (fun a b => ¬(pyIsSpace a = true ∧ pyIsSpace b = true)) (collapseWs l) := by
  induction l with
  | nil => simp [collapseWs]
  | cons a rest ih =>
    unfold collapseWs
    split
    · rename_i hws
      split
      · exact ih
      · rename_i hnext
        rw [List.chain'_cons']
        refine ⟨?_, ih⟩
        intro y hy
        cases rest with
        | nil => simp [collapseWs] at hy
        | cons d r2 =>
          have hd : pyIsSpace d = false := by
            simpa using hnext
          rw [collapseWs_head_nonWs hd] at hy
          cases hy
          intro hcon
          rw [hd] at hcon
          exact absurd hcon.2 (by simp)
    · rename_i hnws
      rw [List.chain'_cons']
      refine ⟨?_, ih⟩
      intro y _ hcon
      exact absurd hcon.1 (by simpa using hnws)

theorem collapseWs_id {l : List Char}
    (hmem : ∀ c ∈ l, pyIsSpace c = true → c = ' ')
    (hch : List.Chain' (fun a b => ¬(pyIsSpace a = true ∧ pyIsSpace b = true)) l) :
    collapseWs l = l := by
  induction l with
  | nil => rfl
  | cons a rest ih =>
    unfold collapseWs
    have hrest : ∀ c ∈ rest, pyIsSpace c = true → c = ' ' := by
      intro c hc
      exact hmem c (List.mem_cons_of_mem _ hc)
    have hchrest : List.Chain' (fun a b => ¬(pyIsSpace a = true ∧ pyIsSpace b = true)) rest := by
      cases rest with
      | nil => simp
      | cons d r2 => exact (List.chain'_cons.mp hch).2
    split
    · rename_i hws
      have hxa : a = ' ' := hmem a (List.mem_cons_self a rest) hws
      split
      · rename_i hnext
        exfalso
        cases rest with
        | nil => simp at hnext
        | cons d r2 =>
          have hd : pyIsSpace d = true := by simpa using hnext
          exact (List.chain'_cons.mp hch).1 ⟨hws, hd⟩
      · rw [ih hrest hchrest, hxa]
    · rw [ih hrest hchrest]

theorem collapseWs_noDD {l : List Char} (h : hasDD l = false) :
    hasDD (collapseWs l) = false := by
  induction l with
  | nil => rfl
  | cons a rest ih =>
    rw [hasDD_cons, Bool.or_eq_false_iff] at h
    unfold collapseWs
    split
    · split
      · exact ih h.2
      · rw [hasDD_cons, ih h.2, Bool.or_false, Bool.and_eq_false_iff]
        exact Or.inl (by simp)
    · rename_i hnws
      rw [hasDD_cons, ih h.2, Bool.or_false, Bool.and_eq_false_iff]
      by_cases ha : a = '-'
      · refine Or.inr ?_
        rw [decide_eq_false_iff_not]
        intro hhd
        rw [Bool.and_eq_false_iff] at h
        rcases h.1 with h1 | h1
        · exact absurd (by simpa using h1) (by simp [ha])
        · cases rest with
          | nil => simp [collapseWs] at hhd
          | cons d r2 =>
            by_cases hd : pyIsSpace d = true
            · rw [collapseWs_head_ws r2 d hd] at hhd
              exact absurd hhd (by decide)
            · rw [collapseWs_head_nonWs (by simpa using hd)] at hhd
              have hd' : d = '-' := by simpa using hhd
              have hne : ¬ ((d :: r2).head? = some '-') := by simpa using h1
              exact hne (by simp [hd'])
      · exact Or.inl (by simpa using ha)

theorem collapseWs_ne_nil {l : List Char} (h : l ≠ []) : collapseWs l ≠ [] := by
  induction l with
  | nil => exact absurd rfl h
  | cons a rest ih =>
    unfold collapseWs
    split
    · split
      · rename_i hnext
        cases rest with
        | nil => simp at hnext
        | cons d r2 => exact ih (by simp)
      · simp
    · simp

theorem processLine_props {line l : List Char} (h : processLine line = some l) :
    l ≠ []
    ∧ (∀ c, l.head? = some c → pyIsSpace c = false ∧ c ≠ '#')
    ∧ (∀ c, l.getLast? = some c → pyIsSpace c = false)
    ∧ hasDD l = false := by
  have hcommon : pyStripWs line ≠ [] → startsWithDD (pyStripWs line) = false →
      ¬ (pyStripWs line).head? = some '#' →
      ∃ h0, (pyStripWs line).head? = some h0 ∧ pyIsSpace h0 = false ∧ h0 ≠ '#' := by
    intro hne hsdd hhash
    obtain ⟨h0, hh0⟩ : ∃ h0, (pyStripWs line).head? = some h0 := by
      cases hx : (pyStripWs line).head? with
      | none => exact absurd (by simpa using hx) hne
      | some v => exact ⟨v, rfl⟩
    refine ⟨h0, hh0, pyStripGen_head_false hh0, ?_⟩
    intro he
    rw [he] at hh0
    exact hhash hh0
  unfold processLine at h
  split at h
  · exact absurd h (by simp)
  split at h
  · exact absurd h (by simp)
  split at h
  · exact absurd h (by simp)
  rename_i hne hsdd hhash
  obtain ⟨h0, hh0, hh0ws, hh0hash⟩ :=
    hcommon (by simpa using hne) (by simpa using hsdd) hhash
  have hl0ne : pyStripWs line ≠ [] := by simpa using hne
  split at h
  · -- inline-comment truncation branch
    rename_i hdd
    split at h
    · exact absurd h (by simp)
    rename_i hl2ne
    have hl := Option.some.inj h
    have hchead : l.head? = some h0 := by
      rw [← hl]
      have htb : (takeBeforeDD (pyStripWs line)).head? = some h0 := by
        rw [takeBeforeDD_head_eq hl0ne (by simpa using hsdd)]
        exact hh0
      exact pyStripGen_head htb hh0ws
    refine ⟨?_, ?_, ?_, ?_⟩
    · intro he
      rw [he] at hchead
      simp at hchead
    · intro c hc
      rw [hchead] at hc
      cases hc
      exact ⟨hh0ws, hh0hash⟩
    · intro c hc
      rw [← hl] at hc
      exact pyStripGen_getLast_false hc
    · rw [← hl]
      exact hasDD_infix (pyStripGen_inf _ _) (takeBeforeDD_noDD _)
  · -- no inline comment: the stripped line is returned unchanged
    rename_i hdd
    have hl := Option.some.inj h
    refine ⟨?_, ?_, ?_, ?_⟩
    · intro he
      rw [← hl] at he
      exact hl0ne he
    · intro c hc
      rw [← hl, hh0] at hc
      cases hc
      exact ⟨hh0ws, hh0hash⟩
    · intro c hc
      rw [← hl] at hc
      exact pyStripGen_getLast_false hc
    · rw [← hl]
      simpa using hdd

theorem splitNl_no_newline {l : List Char} (h : '\n' ∉ l) : splitNl l = [l] := by
  induction l with
  | nil => rfl
  | cons c rest ih =>
    unfold splitNl
    have hc : ¬ c = '\n' := by
      intro he
      exact h (by simp [he])
    rw [if_neg hc, ih (fun hm => h (List.mem_cons_of_mem _ hm))]

theorem joinSp_head {l : List Char} (ls : List (List Char)) (h : l ≠ []) :
    (joinSp (l :: ls)).head? = l.head? := by
  unfold joinSp
  split
  · rfl
  · rw [List.head?_append]
    cases l with
    | nil => exact absurd rfl h
    | cons a u => rfl

theorem joinSp_noDD {ls : List (List Char)}
    (h : ∀ l ∈ ls, hasDD l = false) : hasDD (joinSp ls) = false := by
  induction ls with
  | nil => rfl
  | cons l ls ih =>
    unfold joinSp
    split
    · exact h l (List.mem_cons_self _ _)
    · by_contra hc
      rw [Bool.not_eq_false] at hc
      rcases hasDD_append_cases hc with h1 | h1 | h1
      · rw [h l (List.mem_cons_self _ _)] at h1
        exact absurd h1 (by simp)
      · rw [hasDD_cons] at h1
        have hJ : hasDD (joinSp ls) = false :=
          ih (fun x hx => h x (List.mem_cons_of_mem _ hx))
        rw [hJ] at h1
        simp at h1
      · exact absurd h1.2 (by simp)

theorem cleanCore_spaceNormal (t : List Char) : spaceNormal (cleanCore t) := by
  unfold cleanCore
  constructor
  · intro c hc hws
    exact collapseWs_mem c ((pyStripGen_inf _ _).sublist.subset hc) hws
  · exact chain'_of_infix (collapseWs_chain' _) (pyStripGen_inf _ _)

theorem cleanCore_noDD (t : List Char) : hasDD (cleanCore t) = false := by
  unfold cleanCore
  refine hasDD_infix (pyStripGen_inf _ _) (collapseWs_noDD ?_)
  refine joinSp_noDD ?_
  intro l hl
  obtain ⟨a, _, ha2⟩ := List.mem_filterMap.mp hl
  exact (processLine_props ha2).2.2.2

theorem cleanCore_head (t : List Char) :
    cleanCore t = [] ∨
      ∃ h0, (cleanCore t).head? = some h0 ∧ pyIsSpace h0 = false ∧ h0 ≠ '#' := by
  unfold cleanCore
  cases hlc : (splitNl (pyStripQuotes (pyStripWs t))).filterMap processLine with
  | nil => exact Or.inl rfl
  | cons l0 ls =>
    have hl0 : l0 ≠ []
        ∧ (∀ c, l0.head? = some c → pyIsSpace c = false ∧ c ≠ '#')
        ∧ (∀ c, l0.getLast? = some c → pyIsSpace c = false)
        ∧ hasDD l0 = false := by
      have hmem : l0 ∈ (splitNl (pyStripQuotes (pyStripWs t))).filterMap processLine := by
        rw [hlc]
        exact List.mem_cons_self _ _
      obtain ⟨a, _, ha2⟩ := List.mem_filterMap.mp hmem
      exact processLine_props ha2
    obtain ⟨h0, hh0⟩ : ∃ h0, l0.head? = some h0 := by
      cases hx : l0.head? with
      | none => exact absurd (by simpa using hx) hl0.1
      | some v => exact ⟨v, rfl⟩
    have hh0p := hl0.2.1 h0 hh0
    refine Or.inr ⟨h0, ?_, hh0p⟩
    have hjhead : (joinSp (l0 :: ls)).head? = some h0 := by
      rw [joinSp_head ls hl0.1, hh0]
    exact pyStripGen_head (collapseWs_head hjhead hh0p.1) hh0p.1

theorem cleanList_props (t : List Char) :
    spaceNormal (cleanList t) ∧ hasDD (cleanList t) = false ∧
    (cleanList t = [] ∨
      ((cleanList t).getLast? = some ';' ∧
        ∃ h, (cleanList t).head? = some h ∧ pyIsSpace h = false ∧ h ≠ '#')) := by
  have hqsn := cleanCore_spaceNormal t
  have hqdd := cleanCore_noDD t
  unfold cleanList
  split
  · exact ⟨⟨by simp, by simp⟩, rfl, Or.inl rfl⟩
  split
  · rename_i hqe
    exact ⟨hqsn, hqdd, Or.inl (by simpa using hqe)⟩
  rename_i hqe
  rcases cleanCore_head t with hq0 | ⟨h0, hqhead, hh0ws, hh0hash⟩
  · exact absurd hq0 (by simpa using hqe)
  split
  · rename_i hlast
    exact ⟨hqsn, hqdd, Or.inr ⟨hlast, h0, hqhead, hh0ws, hh0hash⟩⟩
  · refine ⟨?_, ?_, Or.inr ⟨List.getLast?_concat _, h0, ?_, hh0ws, hh0hash⟩⟩
    · constructor
      · intro c hc hws
        rcases List.mem_append.mp hc with h1 | h1
        · exact hqsn.1 c h1 hws
        · simp at h1
          rw [h1] at hws
          exact absurd hws (by decide)
      · rw [List.chain'_append]
        refine ⟨hqsn.2, List.chain'_singleton _, ?_⟩
        intro x _ y hy
        have hy' : ';' = y := by simpa using hy
        cases hy'
        intro hcon
        exact absurd hcon.2 (by decide)
    · by_contra hcon
      rw [Bool.not_eq_false] at hcon
      rcases hasDD_append_cases hcon with h1 | h1 | h1
      · rw [hqdd] at h1
        exact absurd h1 (by simp)
      · simp [hasDD] at h1
      · exact absurd h1.2 (by decide)
    · rw [List.head?_append, hqhead]
      rfl

theorem cleanList_fixpoint {y : List Char} (hne : y ≠ [])
    (hsn : spaceNormal y) (hdd : hasDD y = false)
    (hlast : y.getLast? = some ';')
    (hhead : ∀ c, y.head? = some c →
      pyIsSpace c = false ∧ c ≠ '#' ∧ isQuoteChar c = false) :
    cleanList y = y := by
  obtain ⟨h0, hh0⟩ : ∃ h0, y.head? = some h0 := by
    cases hx : y.head? with
    | none => exact absurd (by simpa using hx) hne
    | some v => exact ⟨v, rfl⟩
  obtain ⟨hh0ws, hh0hash, hh0q⟩ := hhead h0 hh0
  have hstripws : pyStripWs y = y := by
    refine pyStripGen_eq_self ?_ ?_
    · intro c hc
      rw [hh0] at hc
      cases hc
      exact hh0ws
    · intro c hc
      rw [hlast] at hc
      cases hc
      decide
  have hstripq : pyStripQuotes (pyStripWs y) = y := by
    rw [hstripws]
    refine pyStripGen_eq_self ?_ ?_
    · intro c hc
      rw [hh0] at hc
      cases hc
      exact hh0q
    · intro c hc
      rw [hlast] at hc
      cases hc
      decide
  have hnonl : '\n' ∉ y := by
    intro hmem
    have := hsn.1 '\n' hmem (by decide)
    exact absurd this (by decide)
  have hsplit : splitNl (pyStripQuotes (pyStripWs y)) = [y] := by
    rw [hstripq]
    exact splitNl_no_newline hnonl
  have hproc : processLine y = some y := by
    unfold processLine
    rw [hstripws]
    rw [if_neg (by simpa using hne)]
    rw [if_neg ?hsdd]
    case hsdd =>
      intro hs
      rw [startsWithDD_hasDD hs] at hdd
      exact absurd hdd (by simp)
    rw [if_neg ?hhash]
    case hhash =>
      intro hh
      rw [hh0] at hh
      cases hh
      exact hh0hash rfl
    rw [if_neg (by simp [hdd])]
  have hcore : cleanCore y = y := by
    unfold cleanCore
    rw [hsplit]
    have : List.filterMap processLine [y] = [y] := by
      simp [List.filterMap_cons, hproc]
    rw [this]
    have hjoin : joinSp [y] = y := by
      unfold joinSp
      simp
    rw [hjoin, collapseWs_id hsn.1 hsn.2, hstripws]
  unfold cleanList
  rw [if_neg (by simpa using hne), hcore,
    if_neg (by simpa using hne), if_pos hlast]

/-- C5: the claim states clean_sql_content is idempotent on every
string.  It is not: quote stripping re-applies on a cleaned result that
begins with a quote character.  At the concrete input consisting of a
double quote, a space, a single quote and the letter a, cleaning once
gives quote-a-semicolon and cleaning twice gives a-semicolon. -/
theorem clean_sql_content_not_idempotent :
    clean_sql_content (clean_sql_content ("\" " ++ String.mk [sq] ++ "a")) ≠
      clean_sql_content ("\" " ++ String.mk [sq] ++ "a") := by
  decide

/-- C5 (amended): clean_sql_content is idempotent on every input whose
cleaned result does not begin with a quote character; the counterexample
forces exactly this restriction. -/
theorem clean_sql_content_idempotent_amended (x : String)
    (h : ∀ c, (clean_sql_content x).data.head? = some c → isQuoteChar c = false) :
    clean_sql_content (clean_sql_content x) = clean_sql_content x := by
  unfold clean_sql_content
  have hdata : (String.mk (cleanList x.data)).data = cleanList x.data := rfl
  rw [hdata]
  obtain ⟨hsn, hdd, hrest⟩ := cleanList_props x.data
  rcases hrest with hnil | ⟨hlast, h0, hh0, hh0ws, hh0hash⟩
  · rw [hnil]
    rfl
  · have hne : cleanList x.data ≠ [] := by
      intro he
      rw [he] at hh0
      simp at hh0
    rw [cleanList_fixpoint hne hsn hdd hlast ?_]
    intro c hc
    rw [hh0] at hc
    cases hc
    refine ⟨hh0ws, hh0hash, ?_⟩
    have := h h0 (by rw [← hh0]; rfl)
    exact this

/-- C5 witness: the amended idempotence applied at a concrete input. -/
theorem clean_sql_content_idempotent_amended_witness :
    clean_sql_content (clean_sql_content "SELECT 1") = clean_sql_content "SELECT 1" :=
  clean_sql_content_idempotent_amended "SELECT 1" (by decide)

theorem fieldValueResult_clean (full : List Char) (v : Json) :
    ∃ t, fieldValueResult full v = cleanList t := by
  have hnil : ([] : List Char) = cleanList [] := rfl
  cases v with
  | str s => exact ⟨s, rfl⟩
  | null => exact ⟨[], rfl⟩
  | bool b =>
    simp only [fieldValueResult]
    split
    · exact ⟨full, rfl⟩
    · exact ⟨[], hnil⟩
  | num n =>
    simp only [fieldValueResult]
    split
    · exact ⟨full, rfl⟩
    · exact ⟨[], hnil⟩
  | arr xs =>
    simp only [fieldValueResult]
    split
    · exact ⟨full, rfl⟩
    · exact ⟨[], hnil⟩
  | obj fs =>
    simp only [fieldValueResult]
    split
    · exact ⟨full, rfl⟩
    · exact ⟨[], hnil⟩

theorem strat1_clean {full r : List Char} (h : strat1 full = some r) :
    ∃ t, r = cleanList t := by
  unfold strat1 at h
  split at h
  · split at h
    · split at h
      · obtain ⟨t, ht⟩ := fieldValueResult_clean full _
        exact ⟨t, by rw [← Option.some.inj h, ht]⟩
      · exact absurd h (by simp)
    · exact absurd h (by simp)
    · exact absurd h (by simp)
  · exact absurd h (by simp)

theorem strat2_clean {full r : List Char} (h : strat2 full = some r) :
    ∃ t, r = cleanList t := by
  unfold strat2 at h
  split at h
  · split at h
    · split at h
      · obtain ⟨t, ht⟩ := fieldValueResult_clean full _
        exact ⟨t, by rw [← Option.some.inj h, ht]⟩
      · exact absurd h (by simp)
    · exact absurd h (by simp)
    · exact absurd h (by simp)
  · exact absurd h (by simp)

theorem extract_eq_cleanList (s : String) :
    ∃ t, (extract_sql_from_response s).data = cleanList t := by
  unfold extract_sql_from_response
  cases h1 : strat1 s.data with
  | some r =>
    simp only [h1]
    exact strat1_clean h1
  | none =>
    simp only [h1]
    cases h2 : strat2 s.data with
    | some r =>
      simp only [h2]
      exact strat2_clean h2
    | none =>
      simp only [h2]
      cases h3 : strat3 s.data with
      | some r =>
        simp only [h3]
        unfold strat3 at h3
        obtain ⟨g, _, rfl⟩ := Option.map_eq_some'.mp h3
        exact ⟨g, rfl⟩
      | none =>
        simp only [h3]
        cases h4 : strat4 s.data with
        | some r =>
          simp only [h4]
          unfold strat4 at h4
          obtain ⟨g, _, rfl⟩ := Option.map_eq_some'.mp h4
          exact ⟨g, rfl⟩
        | none =>
          simp only [h4]
          cases h5 : strat5 s.data with
          | some r =>
            simp only [h5]
            unfold strat5 at h5
            split at h5
            · exact ⟨s.data, (Option.some.inj h5).symm⟩
            · exact absurd h5 (by simp)
          | none =>
            simp only [h5]
            cases h6 : strat6 s.data with
            | some r =>
              simp only [h6]
              unfold strat6 at h6
              obtain ⟨g, _, rfl⟩ := Option.map_eq_some'.mp h6
              exact ⟨g, rfl⟩
            | none =>
              simp only [h6]
              exact ⟨s.data, rfl⟩

/-- C10: on every input the SQL extractor returns, on every path of the
cascade, a string with no newline, with normal-form whitespace (all
whitespace is single spaces, never two in a row), that is either empty
or semicolon-terminated, because each return value is a
clean_sql_content result. -/
theorem extract_sql_from_response_canonical (s : String) :
    (∀ c ∈ (extract_sql_from_response s).data, c ≠ '\n')
    ∧ spaceNormal (extract_sql_from_response s).data
    ∧ ((extract_sql_from_response s).data = [] ∨
        (extract_sql_from_response s).data.getLast? = some ';')
    ∧ ∃ t, extract_sql_from_response s = clean_sql_content (String.mk t) := by
  obtain ⟨t, ht⟩ := extract_eq_cleanList s
  obtain ⟨hsn, _, hrest⟩ := cleanList_props t
  rw [← ht] at hsn hrest
  refine ⟨?_, hsn, ?_, ⟨t, ?_⟩⟩
  · intro c hc he
    subst he
    have := hsn.1 '\n' hc (by decide)
    exact absurd this (by decide)
  · rcases hrest with h | h
    · exact Or.inl h
    · exact Or.inr h.1
  · unfold clean_sql_content
    cases hx : extract_sql_from_response s with
    | mk d =>
      rw [hx] at ht
      simp only at ht
      rw [ht]

/-- C4: the claim describes the extractor as a skip-on-empty cascade
(a strategy whose cleaned result is empty lets later strategies run).
The code instead returns the first located result even when empty: on
the input consisting of a JSON object whose sqlquery field is the empty
string, strategy one returns the empty string, while the skip-on-empty
cascade the claim describes would fall through to the last-resort
cleanup and return a non-empty string. -/
theorem extract_cascade_not_skip_on_empty :
    extract_sql_from_response "\x7b\"sqlquery\": \"\"\x7d" = "" ∧
    extract_sql_from_response "\x7b\"sqlquery\": \"\"\x7d" ≠
      String.mk (firstNonEmpty extractStrategies cleanList
        ("\x7b\"sqlquery\": \"\"\x7d" : String).data) := by
  constructor
  · decide
  · decide

/-- C4 (amended): the extractor equals the ordered first-located
cascade: each strategy is attempted only if no earlier strategy located
a candidate at all, and a located candidate is returned even when its
cleaned result is empty. -/
theorem extract_cascade_first_located (s : String) :
    extract_sql_from_response s =
      String.mk (firstLocated extractStrategies cleanList s.data) := by
  unfold extract_sql_from_response extractStrategies firstLocated
  rfl

/-- C1: the compliance gate classifies a report as compliant exactly
when it contains the affirmative marker, or the token compliant
case-insensitively, or the general-compliance token together with
neither the negative token nor the violation token; the automatic
pipeline and the manual-intervention path apply the same rule, and the
five reference inputs of the spec evaluate as stated. -/
theorem compliance_gate_rule (r : String) :
    (continue_is_compliant r = true ↔
      (containsStr "合规通过" r = true
        ∨ containsStr "compliant" (pyLower r) = true
        ∨ (containsStr "合规" r = true
            ∧ containsStr "不合规" r = false
            ∧ containsStr "违规" r = false)))
    ∧ continue_is_compliant r = manual_is_compliant r
    ∧ continue_is_compliant "合规通过" = true
    ∧ continue_is_compliant "不合规" = false
    ∧ continue_is_compliant "合规, 但部分字段需脱敏" = true
    ∧ continue_is_compliant "存在违规风险" = false
    ∧ continue_is_compliant "This query is compliant." = true := by
  refine ⟨?_, rfl, by decide, by decide, by decide, by decide, by decide⟩
  unfold continue_is_compliant
  simp only [Bool.or_eq_true, Bool.and_eq_true, Bool.not_eq_true']
  tauto

/-- C6: the claim states every occurrence of the relative-date interval
pattern is rewritten before execution, uniformly for all day counts.
The code is wrong: the hardcoded thirty-day branch reassigns
processed_query from the original query, discarding the general
rewrite.  On a query containing a forty-five-day interval and an
unrelated thirty-day interval substring, the executed statement is the
original query, still containing the unrewritten pattern, while the
general rewrite alone would have changed it. -/
theorem interval_rewrite_clobbered :
    preprocess_query ("SELECT * FROM orders WHERE order_date >= CURRENT_DATE - INTERVAL "
        ++ String.mk [sq] ++ "45 days" ++ String.mk [sq]
        ++ " AND ship_date >= NOW() - INTERVAL "
        ++ String.mk [sq] ++ "30 days" ++ String.mk [sq] ++ ";")
      = ("SELECT * FROM orders WHERE order_date >= CURRENT_DATE - INTERVAL "
        ++ String.mk [sq] ++ "45 days" ++ String.mk [sq]
        ++ " AND ship_date >= NOW() - INTERVAL "
        ++ String.mk [sq] ++ "30 days" ++ String.mk [sq] ++ ";")
    ∧ subInterval ("SELECT * FROM orders WHERE order_date >= CURRENT_DATE - INTERVAL "
        ++ String.mk [sq] ++ "45 days" ++ String.mk [sq]
        ++ " AND ship_date >= NOW() - INTERVAL "
        ++ String.mk [sq] ++ "30 days" ++ String.mk [sq] ++ ";" : String).data
      ≠ ("SELECT * FROM orders WHERE order_date >= CURRENT_DATE - INTERVAL "
        ++ String.mk [sq] ++ "45 days" ++ String.mk [sq]
        ++ " AND ship_date >= NOW() - INTERVAL "
        ++ String.mk [sq] ++ "30 days" ++ String.mk [sq] ++ ";" : String).data := by
  constructor
  · decide
  · decide

/-- C9: the claim states the incrementally maintained cost aggregate
always equals the sum of the costs of the records currently in the
history, including after a deletion.  Deletion does not adjust the
aggregate: after appending one record of cost one and deleting it, the
aggregate is one while the history sum is zero. -/
theorem total_cost_delete_counterexample :
    (delete_record
        (add_to_history ({} : Session) { id := 1, user_prompt := "q", cost := 1 }) 1).llm_cost
      ≠ (List.map (fun r => r.cost)
          (delete_record
            (add_to_history ({} : Session) { id := 1, user_prompt := "q", cost := 1 })
            1).analysis_history).sum := by
  simp [delete_record, add_to_history, List.filter]

/-- C9 (amended): after any sequence of appends the aggregate equals
the sum of the appended records' costs (the invariant holds on every
append-only history), and deletion leaves the aggregate unchanged, so
the reconciliation fails exactly when a record with non-zero cost has
been deleted. -/
theorem total_cost_append_invariant :
    (∀ rs : List AnalysisRecord,
        (rs.foldl add_to_history ({} : Session)).llm_cost =
          ((rs.foldl add_to_history ({} : Session)).analysis_history.map
            (fun r => r.cost)).sum)
    ∧ ∀ (s : Session) (cid : Nat), (delete_record s cid).llm_cost = s.llm_cost := by
  constructor
  · have key : ∀ (rs : List AnalysisRecord) (s : Session),
        s.llm_cost = (s.analysis_history.map (fun r => r.cost)).sum →
        (rs.foldl add_to_history s).llm_cost =
          ((rs.foldl add_to_history s).analysis_history.map (fun r => r.cost)).sum := by
      intro rs
      induction rs with
      | nil => intro s h; simpa using h
      | cons r rs ih =>
        intro s h
        apply ih
        simp [add_to_history, h]
    intro rs
    exact key rs {} (by simp)
  · intro s cid
    rfl

theorem foldl_preserve {α β : Type} (f : List α → β → List α) (P : List α → Prop)
    (l : List β) (h : ∀ acc b, b ∈ l → P acc → P (f acc b)) :
    ∀ acc, P acc → P (l.foldl f acc) := by
  induction l with
  | nil =>
    intro acc hp
    simpa using hp
  | cons b bs ih =>
    intro acc hp
    simp only [List.foldl_cons]
    exact ih (fun acc' b' hb' => h acc' b' (List.mem_cons_of_mem _ hb')) _
      (h acc b (List.mem_cons_self _ _) hp)

theorem foldl_id {α β : Type} (f : List α → β → List α) (l : List β)
    (h : ∀ acc b, b ∈ l → f acc b = acc) : ∀ acc, l.foldl f acc = acc := by
  induction l with
  | nil =>
    intro acc
    rfl
  | cons b bs ih =>
    intro acc
    simp only [List.foldl_cons]
    rw [h acc b (List.mem_cons_self _ _)]
    exact ih (fun acc' b' hb' => h acc' b' (List.mem_cons_of_mem _ hb')) acc

theorem append_singleton_invariant {ts acc : List String} {t : String}
    (hp : acc.Nodup ∧ ∀ x ∈ acc, x ∈ ts) (hts : t ∈ ts) (hnew : t ∉ acc) :
    (acc ++ [t]).Nodup ∧ ∀ x ∈ acc ++ [t], x ∈ ts := by
  constructor
  · rw [List.nodup_append_comm]
    rw [List.singleton_append, List.nodup_cons]
    exact ⟨hnew, hp.1⟩
  · intro x hx
    rcases List.mem_append.mp hx with h1 | h1
    · exact hp.2 x h1
    · simp at h1
      rw [h1]
      exact hts

/-- C7: for every request string and table list the relevance filter
returns a duplicate-free list of at most five entries, every one of
which is an available table; determinism is immediate since the
embedded filter is a pure function of the keyword map and its inputs. -/
theorem identify_relevant_tables_guarantees (q : String) (ts : List String) :
    (identify_relevant_tables q ts).length ≤ 5
    ∧ (identify_relevant_tables q ts).Nodup
    ∧ ∀ t ∈ identify_relevant_tables q ts, t ∈ ts := by
  simp only [identify_relevant_tables]
  set P : List String → Prop := fun acc => acc.Nodup ∧ ∀ x ∈ acc, x ∈ ts with hP
  have hkw : P (keyword_table_mapping.foldl
      (fun acc p =>
        if containsStr p.1 (pyLower q) = true then
          p.2.foldl
            (fun acc t => if t ∈ ts ∧ t ∉ acc then acc ++ [t] else acc)
            acc
        else acc) []) := by
    refine foldl_preserve _ P _ ?_ [] ⟨List.nodup_nil, by simp⟩
    intro acc p _ hp
    split
    · refine foldl_preserve _ P _ ?_ acc hp
      intro acc' t' _ hp'
      split
      · rename_i hcond
        exact append_singleton_invariant hp' hcond.1 hcond.2
      · exact hp'
    · exact hp
  have hnames : P (ts.foldl
      (fun acc t =>
        if containsStr (pyLower t) (pyLower q) = true ∧ t ∉ acc then acc ++ [t] else acc)
      (keyword_table_mapping.foldl
        (fun acc p =>
          if containsStr p.1 (pyLower q) = true then
            p.2.foldl
              (fun acc t => if t ∈ ts ∧ t ∉ acc then acc ++ [t] else acc)
              acc
          else acc) [])) := by
    refine foldl_preserve _ P _ ?_ _ hkw
    intro acc t ht hp
    split
    · rename_i hcond
      exact append_singleton_invariant hp ht hcond.2
    · exact hp
  refine ⟨?_, ?_, ?_⟩
  · rw [List.length_take]
    exact min_le_left _ _
  · exact (List.take_sublist _ _).nodup hnames.1
  · intro t ht
    exact hnames.2 t ((List.take_sublist _ _).subset ht)

/-- C8: a request containing no keyword of the static map and no table
name as a case-insensitive substring selects exactly the fixed core
tables, in order, intersected with the available tables. -/
theorem select_relevant_tables_fallback (q : String) (ts : List String)
    (hkw : ∀ p ∈ keyword_table_mapping, containsStr p.1 (pyLower q) = false)
    (hnm : ∀ t ∈ ts, containsStr (pyLower t) (pyLower q) = false) :
    select_relevant_tables q ts =
      List.filter (fun t => decide (t ∈ ts))
        ["orders", "order_items", "products", "customers"] := by
  have hempty : identify_relevant_tables q ts = [] := by
    simp only [identify_relevant_tables]
    have h1 : keyword_table_mapping.foldl
        (fun acc p =>
          if containsStr p.1 (pyLower q) = true then
            p.2.foldl
              (fun acc t => if t ∈ ts ∧ t ∉ acc then acc ++ [t] else acc)
              acc
          else acc) [] = [] := by
      refine foldl_id _ _ ?_ []
      intro acc p hp
      rw [if_neg]
      rw [hkw p hp]
      simp
    have h2 : ts.foldl
        (fun acc t =>
          if containsStr (pyLower t) (pyLower q) = true ∧ t ∉ acc then acc ++ [t] else acc)
        ([] : List String) = [] := by
      refine foldl_id _ _ ?_ []
      intro acc t ht
      rw [if_neg]
      intro hcon
      rw [hnm t ht] at hcon
      exact absurd hcon.1 (by simp)
    rw [h1, h2]
    rfl
  unfold select_relevant_tables
  rw [hempty]
  rfl

/-- C8 witness: the fallback at a concrete keyword-free request over a
concrete table list. -/
theorem select_relevant_tables_fallback_witness :
    select_relevant_tables "zzz" ["orders", "customers"] =
      List.filter (fun t => decide (t ∈ (["orders", "customers"] : List String)))
        ["orders", "order_items", "products", "customers"] :=
  select_relevant_tables_fallback "zzz" ["orders", "customers"] (by decide) (by decide)

theorem continue_appends_once (gsql : String) (record : AnalysisRecord)
    (io : CollabIO) (s : Session) :
    (continue_with_generated_sql gsql record io s).session.analysis_history.length
      = s.analysis_history.length + 1 := by
  simp only [continue_with_generated_sql]
  repeat' split
  all_goals simp [add_to_history]

theorem execute_appends_once (up : String) (nid : Nat) (g : Except String String)
    (io : CollabIO) (s : Session) (h : pyBlank up = false) :
    (execute_new_analysis up nid g io s).session.analysis_history.length
      = s.analysis_history.length + 1 := by
  simp only [execute_new_analysis]
  rw [if_neg (by simp [h])]
  cases g with
  | error e => simp [add_to_history]
  | ok gen_text =>
    simp only []
    split
    · exact continue_appends_once _ _ io s
    · simp [add_to_history]

/-- C3: the claim states every call of execute_new_analysis or
process_manual_sql grows the history by exactly one.  A call of
execute_new_analysis with a blank prompt returns before creating a
record and appends nothing: at a whitespace prompt over an empty
session the history still has length zero, not one. -/
theorem history_append_blank_counterexample :
    ¬ ((execute_new_analysis " " 0 (Except.ok "x") ioStub
        ({} : Session)).session.analysis_history.length
      = ({} : Session).analysis_history.length + 1) := by
  decide

/-- C3 (amended): a run of execute_new_analysis with a non-blank prompt
appends exactly one record on every path, including generation failure,
extraction failure and collaborator exceptions; a run of
process_manual_sql with non-blank SQL whose collaborators return
without raising appends exactly one record.  Blank-input calls (and
manual-path collaborator exceptions, which propagate uncaught) leave
the history unchanged. -/
theorem history_append_exactly_once :
    (∀ (up : String) (nid : Nat) (g : Except String String) (io : CollabIO) (s : Session),
      pyBlank up = false →
      (execute_new_analysis up nid g io s).session.analysis_history.length
        = s.analysis_history.length + 1)
    ∧ (∀ (ms ur : String) (nid : Nat) (io : CollabIO) (s : Session) (rt ct : String),
      pyBlank ms = false →
      io.review_output = Except.ok rt →
      io.compliance_output = Except.ok ct →
      ∃ out, process_manual_sql ms ur nid io s = Except.ok out
        ∧ out.session.analysis_history.length = s.analysis_history.length + 1) := by
  constructor
  · intro up nid g io s h
    exact execute_appends_once up nid g io s h
  · intro ms ur nid io s rt ct hms hro hco
    simp only [process_manual_sql]
    rw [if_pos (by simp [hms]), hro]
    simp only []
    rw [hco]
    simp only []
    split
    · split
      · exact ⟨_, rfl, by simp [add_to_history]⟩
      · exact ⟨_, rfl, by simp [add_to_history]⟩
    · exact ⟨_, rfl, by simp [add_to_history]⟩

/-- C3 witness: the amended theorem applied on both paths at concrete
inputs. -/
theorem history_append_exactly_once_witness :
    (execute_new_analysis "hi" 0 (Except.ok "SELECT 1;") ioStub
        ({} : Session)).session.analysis_history.length
      = ({} : Session).analysis_history.length + 1
    ∧ ∃ out, process_manual_sql "SELECT 2;" "q" 1 ioStub ({} : Session) = Except.ok out
        ∧ out.session.analysis_history.length
          = ({} : Session).analysis_history.length + 1 :=
  ⟨history_append_exactly_once.1 "hi" 0 (Except.ok "SELECT 1;") ioStub {} (by decide),
   history_append_exactly_once.2 "SELECT 2;" "q" 1 ioStub {} "SELECT 1;" "合规通过"
     (by decide) rfl rfl⟩

/-- C2: whenever a run (the automatic continuation or the manual path)
puts a record into pending_execution, the same run ends it in exactly
one of completed, query_failed or compliance_failed: completed exactly
when the gate passes and execution returned a table, query_failed when
the gate passes and execution returned null, compliance_failed when the
gate fails, in which case the executor is never consulted; the record
is never left in pending_execution. -/
theorem pending_execution_always_resolved :
    (∀ (gsql : String) (record : AnalysisRecord) (io : CollabIO) (s : Session),
      Status.pending_execution ∈ (continue_with_generated_sql gsql record io s).statusTrace →
      ∃ rec rep,
        io.compliance_output = Except.ok rep
        ∧ (continue_with_generated_sql gsql record io s).record? = some rec
        ∧ rec.compliance_report = some rep
        ∧ ((continue_is_compliant rep = true ∧ rec.query_dataframe ≠ none
              ∧ rec.status = some Status.completed
              ∧ (continue_with_generated_sql gsql record io s).statusTrace
                  = [Status.pending_execution, Status.completed]
              ∧ (continue_with_generated_sql gsql record io s).execCalls = 1)
          ∨ (continue_is_compliant rep = true ∧ rec.query_dataframe = none
              ∧ rec.status = some Status.query_failed
              ∧ (continue_with_generated_sql gsql record io s).statusTrace
                  = [Status.pending_execution, Status.query_failed]
              ∧ (continue_with_generated_sql gsql record io s).execCalls = 1)
          ∨ (continue_is_compliant rep = false
              ∧ rec.status = some Status.compliance_failed
              ∧ (continue_with_generated_sql gsql record io s).statusTrace
                  = [Status.pending_execution, Status.compliance_failed]
              ∧ (continue_with_generated_sql gsql record io s).execCalls = 0)))
    ∧ (∀ (ms ur : String) (nid : Nat) (io : CollabIO) (s : Session) (out : RunOutcome),
      process_manual_sql ms ur nid io s = Except.ok out →
      Status.pending_execution ∈ out.statusTrace →
      ∃ rec rep,
        io.compliance_output = Except.ok rep
        ∧ out.record? = some rec
        ∧ rec.compliance_report = some rep
        ∧ ((manual_is_compliant rep = true ∧ rec.query_dataframe ≠ none
              ∧ rec.status = some Status.completed
              ∧ out.statusTrace = [Status.pending_execution, Status.completed]
              ∧ out.execCalls = 1)
          ∨ (manual_is_compliant rep = true ∧ rec.query_dataframe = none
              ∧ rec.status = some Status.query_failed
              ∧ out.statusTrace = [Status.pending_execution, Status.query_failed]
              ∧ out.execCalls = 1)
          ∨ (manual_is_compliant rep = false
              ∧ rec.status = some Status.compliance_failed
              ∧ out.statusTrace = [Status.pending_execution, Status.compliance_failed]
              ∧ out.execCalls = 0))) := by
  constructor
  · intro gsql record io s
    simp only [continue_with_generated_sql]
    split
    · split
      · intro hmem
        simp at hmem
      · split
        · intro hmem
          simp at hmem
        · split
          · intro hmem
            simp at hmem
          · rename_i review_text _ rep hco
            split
            · rename_i hc
              split
              · rename_i df hq
                intro _
                refine ⟨_, rep, hco, rfl, by simp, Or.inl ⟨hc, ?_, by simp, rfl, rfl⟩⟩
                simp [hq]
              · rename_i hq
                intro _
                refine ⟨_, rep, hco, rfl, by simp,
                  Or.inr (Or.inl ⟨hc, ?_, by simp, rfl, rfl⟩)⟩
                simp [hq]
            · rename_i hc
              intro _
              exact ⟨_, rep, hco, rfl, by simp,
                Or.inr (Or.inr ⟨by simpa using hc, by simp, rfl, rfl⟩)⟩
    · intro hmem
      simp at hmem
  · intro ms ur nid io s out hout
    simp only [process_manual_sql] at hout
    split at hout
    · split at hout
      · exact absurd hout (by simp)
      · split at hout
        · exact absurd hout (by simp)
        · rename_i review_text _ rep hco
          split at hout
          · rename_i hc
            split at hout
            · rename_i df hq
              cases Except.ok.inj hout
              intro _
              refine ⟨_, rep, hco, rfl, by simp, Or.inl ⟨hc, ?_, by simp, rfl, rfl⟩⟩
              simp [hq]
            · rename_i hq
              cases Except.ok.inj hout
              intro _
              refine ⟨_, rep, hco, rfl, by simp,
                Or.inr (Or.inl ⟨hc, ?_, by simp, rfl, rfl⟩)⟩
              simp [hq]
          · rename_i hc
            cases Except.ok.inj hout
            intro _
            exact ⟨_, rep, hco, rfl, by simp,
              Or.inr (Or.inr ⟨by simpa using hc, by simp, rfl, rfl⟩)⟩
    · cases Except.ok.inj hout
      intro hmem
      simp at hmem

/-- C2 witness: the theorem applied on both paths at concrete inputs
that reach pending_execution. -/
theorem pending_execution_always_resolved_witness :
    (∃ rec rep,
      ioStub.compliance_output = Except.ok rep
      ∧ (continue_with_generated_sql "SELECT 1;" { id := 0, user_prompt := "p" }
          ioStub ({} : Session)).record? = some rec
      ∧ rec.compliance_report = some rep
      ∧ ((continue_is_compliant rep = true ∧ rec.query_dataframe ≠ none
            ∧ rec.status = some Status.completed
            ∧ (continue_with_generated_sql "SELECT 1;" { id := 0, user_prompt := "p" }
                ioStub ({} : Session)).statusTrace
                = [Status.pending_execution, Status.completed]
            ∧ (continue_with_generated_sql "SELECT 1;" { id := 0, user_prompt := "p" }
                ioStub ({} : Session)).execCalls = 1)
        ∨ (continue_is_compliant rep = true ∧ rec.query_dataframe = none
            ∧ rec.status = some Status.query_failed
            ∧ (continue_with_generated_sql "SELECT 1;" { id := 0, user_prompt := "p" }
                ioStub ({} : Session)).statusTrace
                = [Status.pending_execution, Status.query_failed]
            ∧ (continue_with_generated_sql "SELECT 1;" { id := 0, user_prompt := "p" }
                ioStub ({} : Session)).execCalls = 1)
        ∨ (continue_is_compliant rep = false
            ∧ rec.status = some Status.compliance_failed
            ∧ (continue_with_generated_sql "SELECT 1;" { id := 0, user_prompt := "p" }
                ioStub ({} : Session)).statusTrace
                = [Status.pending_execution, Status.compliance_failed]
            ∧ (continue_with_generated_sql "SELECT 1;" { id := 0, user_prompt := "p" }
                ioStub ({} : Session)).execCalls = 0))) :=
  pending_execution_always_resolved.1 "SELECT 1;" { id := 0, user_prompt := "p" }
    ioStub {} (by decide)

end DataCrew
